import Mathlib

/-!
Verification of the document ingestion and text-extraction pipeline of the
`ai-knowledge-agent-api` repository, as a shallow embedding in Lean 4.

Embedding conventions:
* JavaScript strings and byte buffers are modelled as Lean `String`
  (UTF-8 decoding of a fetched buffer is the identity in this model).
* Promises/async are modelled by explicit state passing; thrown JS errors are
  modelled by `Except String`; the repository's `safeAsync` wrapper, which
  converts a thrown error into `{success:false, error}` and a normal return
  into `{success:true, data}`, is modelled by `ServiceResult`.
* The Drizzle/Postgres database is modelled as in-memory lists of rows; a
  drizzle `update ... set ... where eq(col, id)` updates every matching row.
* External collaborators (Cloudinary fetch, the OCR HTTP API, `mammoth`,
  `gray-matter`, the wall clock) are oracles carried in `ExtractionEnv`.
-/

/-- Character class of the JavaScript regexes `\s` used by
`text-extraction-utils.ts` (ASCII whitespace; the Unicode space characters
also matched by `\s` play no role in any claim). -/
def isWsChar (c : Char) : Bool :=
  c == ' ' || c == '\t' || c == '\n' || c == '\r' ||
    c == Char.ofNat 11 || c == Char.ofNat 12

/-- Fuel-driven worker for `jsSplitWs`.  One step removes the (possibly empty)
leading run of non-whitespace characters as one piece and then skips the
separating maximal whitespace run, exactly as `String.prototype.split(/\s+/)`
does. -/
def jsSplitWsAux : Nat → List Char → List (List Char)
  | 0, _ => []
  | Nat.succ fuel, s =>
    let pre := s.takeWhile (fun c => !isWsChar c)
    match s.dropWhile (fun c => !isWsChar c) with
    | [] => [pre]
    | c :: t => pre :: jsSplitWsAux fuel ((c :: t).dropWhile isWsChar)

/-- JavaScript `s.split(/\s+/)` on a list of characters: pieces between
maximal whitespace runs, keeping an empty leading/trailing piece when the
string starts/ends with whitespace, and `[""]` for the empty string. -/
def jsSplitWs (s : List Char) : List (List Char) :=
  jsSplitWsAux (s.length + 1) s

/-- JavaScript `String.prototype.trim()`: remove leading and trailing
whitespace. -/
def jsTrim (s : List Char) : List Char :=
  ((s.dropWhile isWsChar).reverse.dropWhile isWsChar).reverse

/-- `text.trim().split(/\s+/).filter(word => word.length > 0).length` from
`calculateTextMetadata` in `src/utils/text-extraction-utils.ts`. -/
def jsWordCount (text : String) : Nat :=
  (((jsSplitWs (jsTrim text.toList))).filter (fun w => w.length != 0)).length

/-- `text.replace(/\s/g, '').length` from `calculateTextMetadata`. -/
def jsCharCount (text : String) : Nat :=
  (text.toList.filter (fun c => !isWsChar c)).length

/-- Optional metadata hints an extractor passes to `calculateTextMetadata` as
`additionalMeta`, together with the fields the fallback shapes set directly
(cf. the `TextExtractionResult` interface in the repository's types). -/
structure ExtraMeta where
  format : Option String
  extractionMethod : Option String
  pageCount : Option Nat
  ocrProcessingTime : Option Nat
  ocrLanguage : Option String
  apiResponseTime : Option Nat
  frontMatter : Option (List (String × String))
  warnings : Option (List String)
deriving Repr, DecidableEq

/-- `ExtraMeta` with every optional field absent. -/
def emptyExtra : ExtraMeta :=
  { format := none, extractionMethod := none, pageCount := none,
    ocrProcessingTime := none, ocrLanguage := none, apiResponseTime := none,
    frontMatter := none, warnings := none }

/-- The metadata object of a `TextExtractionResult`: the word and character
counts plus whatever hints the extractor supplied. -/
structure TextMetadata extends ExtraMeta where
  wordCount : Nat
  characterCount : Nat
deriving Repr, DecidableEq

/-- `calculateTextMetadata` from `src/utils/text-extraction-utils.ts`:
`{ wordCount, characterCount, ...additionalMeta }`.  No caller of the source
function passes `wordCount`/`characterCount` inside `additionalMeta`, so the
JS spread cannot override the two computed counts. -/
def calculateTextMetadata (text : String) (additionalMeta : ExtraMeta) : TextMetadata :=
  { toExtraMeta := additionalMeta,
    wordCount := jsWordCount text,
    characterCount := jsCharCount text }

/-- The repository's `ServiceResult<T>` as produced by `safeAsync`: either
`{success:true, data}` or `{success:false, error}` (only the error message is
relevant; `safeAsync` preserves it). -/
inductive ServiceResult (α : Type) where
  | success (data : α)
  | failure (error : String)
deriving Repr, DecidableEq

/-- Whether a `ServiceResult` is `{success:true}`. -/
def ServiceResult.isSuccess {α : Type} : ServiceResult α → Bool
  | ServiceResult.success _ => true
  | ServiceResult.failure _ => false

/-- `TextExtractionResult`: the `(text, metadata)` pair every extractor
produces. -/
structure TextExtractionResult where
  text : String
  metadata : TextMetadata
deriving Repr, DecidableEq

/-- Body of the external OCR API's JSON reply, flattening the
`data: {extracted_text, metrics: {...}, language}` nesting; `Option` models
absent fields as seen through lodash `_.get`. -/
structure OcrResponseBody where
  success : Bool
  message : Option String
  extractedText : Option String
  pageCount : Option Nat
  executionTimeSeconds : Option Nat
  language : Option String
deriving Repr, DecidableEq

/-- Outcome of the single `axios.post` to the OCR service: either a reply
(any `success` value) or a thrown network/timeout/HTTP error.  `elapsedMs`
is the wall-clock `Date.now() - startTime` the caller measures. -/
inductive OcrOutcome where
  | reply (body : OcrResponseBody) (elapsedMs : Nat)
  | netError (message : String) (elapsedMs : Nat)
deriving Repr, DecidableEq

/-- JavaScript `x || d` for an optional string (`none` and `""` are falsy). -/
def jsOrStr (v : Option String) (d : String) : String :=
  match v with
  | some s => if s = "" then d else s
  | none => d

/-- JavaScript `x || d` for an optional number (`none` and `0` are falsy). -/
def jsOrNat (v : Option Nat) (d : Nat) : Nat :=
  match v with
  | some n => if n = 0 then d else n
  | none => d

/-- The degraded result built in the `catch` block of `extractTextFromPDF`
(graceful fallback on any OCR failure). -/
def pdfFailureResult (msg : String) (elapsed : Nat) : TextExtractionResult :=
  { text := "",
    metadata :=
      { toExtraMeta :=
          { emptyExtra with
              format := some "pdf",
              extractionMethod := some "external-ocr-api",
              apiResponseTime := some elapsed,
              warnings := some ["External OCR API failed: " ++ msg] },
        wordCount := 0,
        characterCount := 0 } }

/-- The error message thrown at the `success = false` check inside
`extractTextFromPDF` (line 64 of `text-extraction.service.ts`), and the
message of a network-level failure otherwise. -/
def ocrErrMsg : OcrOutcome → String
  | OcrOutcome.reply body _ => "OCR API failed: " ++ jsOrStr body.message "Unknown error"
  | OcrOutcome.netError msg _ => msg

/-- The measured `apiResponseTime` of an OCR call. -/
def ocrElapsed : OcrOutcome → Nat
  | OcrOutcome.reply _ e => e
  | OcrOutcome.netError _ e => e

/-- Whether the OCR call counts as failed for the extractor: a thrown
HTTP/timeout error or a reply with `success` not `true`. -/
def ocrFailed : OcrOutcome → Bool
  | OcrOutcome.reply body _ => !body.success
  | OcrOutcome.netError _ _ => true

/-- `extractTextFromPDF` from `src/services/text-extraction.service.ts`.
The empty-buffer check throws past `safeAsync` (failure result); everything
after `startTime` sits in a `try/catch` whose `catch` returns the graceful
fallback. -/
def extractTextFromPDF (buffer : String) (ocr : OcrOutcome) : ServiceResult TextExtractionResult :=
  if buffer.length = 0 then
    ServiceResult.failure "PDF buffer is empty"
  else
    match ocr with
    | OcrOutcome.netError msg elapsed =>
        ServiceResult.success (pdfFailureResult msg elapsed)
    | OcrOutcome.reply body elapsed =>
        if !body.success then
          ServiceResult.success
            (pdfFailureResult ("OCR API failed: " ++ jsOrStr body.message "Unknown error") elapsed)
        else
          let extractedText := jsOrStr body.extractedText ""
          ServiceResult.success
            { text := extractedText,
              metadata := calculateTextMetadata extractedText
                { emptyExtra with
                    pageCount := some (jsOrNat body.pageCount 1),
                    format := some "pdf",
                    extractionMethod := some "external-ocr-api",
                    ocrProcessingTime := some (jsOrNat body.executionTimeSeconds 0),
                    ocrLanguage := some (jsOrStr body.language "en"),
                    apiResponseTime := some elapsed } }

/-- External collaborators used during one extraction run. `fetchFile` models
`fetchFileContent` (its `Except.error` is the `Failed to fetch file: ...`
throw), `mammothExtract` models `mammoth.extractRawText` returning
`(value, messages)`, `grayMatter` models `matter(content)` returning the
front-matter entries and the body, `ocr` is the one OCR call's outcome and
`nowMs` the wall clock. -/
structure ExtractionEnv where
  fetchFile : String → Except String String
  ocr : OcrOutcome
  mammothExtract : String → Except String (String × List String)
  grayMatter : String → List (String × String) × String
  nowMs : Nat

/-- `extractTextFromDOCX`: fetch the blob, run mammoth, collect parser
warnings.  lodash `isEmpty` on a string is true exactly for `""`. -/
def extractTextFromDOCX (filePath : String) (env : ExtractionEnv) : ServiceResult TextExtractionResult :=
  if filePath.length = 0 then
    ServiceResult.failure "File path is required for DOCX extraction"
  else
    match env.fetchFile filePath with
    | Except.error e => ServiceResult.failure e
    | Except.ok buffer =>
        match env.mammothExtract buffer with
        | Except.error e => ServiceResult.failure e
        | Except.ok (value, messages) =>
            let text := value
            let warnings := messages
            ServiceResult.success
              { text := text,
                metadata := calculateTextMetadata text
                  { emptyExtra with
                      format := some "docx",
                      warnings := if warnings.length > 0 then some warnings else none } }

/-- `extractTextFromMarkdown`: reject empty content, split front matter with
gray-matter, and prepend a flattened `key: value` rendering of the front
matter to the body. -/
def extractTextFromMarkdown (content : String) (env : ExtractionEnv) : ServiceResult TextExtractionResult :=
  if content.length = 0 then
    ServiceResult.failure "Markdown content is empty"
  else
    let parsed := env.grayMatter content
    let frontMatter := parsed.1
    let mainContent := parsed.2
    let frontMatterText :=
      if frontMatter.length != 0 then
        String.intercalate "\n" (frontMatter.map (fun kv => kv.1 ++ ": " ++ kv.2)) ++ "\n\n"
      else ""
    let fullText := frontMatterText ++ mainContent
    ServiceResult.success
      { text := fullText,
        metadata := calculateTextMetadata fullText
          { emptyExtra with
              format := some "markdown",
              frontMatter := if frontMatter.length != 0 then some frontMatter else none } }

/-- `extractTextFromTXT`: identity transform; empty content is replaced by
`""` (a no-op) and is not an error. -/
def extractTextFromTXT (content : String) : ServiceResult TextExtractionResult :=
  let content := if content.length = 0 then "" else content
  ServiceResult.success
    { text := content,
      metadata := calculateTextMetadata content { emptyExtra with format := some "txt" } }

/-- The multer/Cloudinary upload file descriptor, restricted to the fields
the ingestion and extraction code reads. -/
structure UploadFile where
  fieldname : String
  originalname : String
  mimetype : String
  size : Nat
  filename : String
  path : String
  publicId : String
  folder : String
deriving Repr, DecidableEq

/-- The no-op result `extractText` builds for an unsupported mimetype. -/
def unsupportedResult (mimetype : String) : TextExtractionResult :=
  { text := "",
    metadata :=
      { toExtraMeta :=
          { emptyExtra with
              format := some "unsupported",
              warnings := some ["Unsupported file type: " ++ mimetype] },
        wordCount := 0,
        characterCount := 0 } }

/-- The degraded result `extractText` substitutes when the selected extractor
reports failure. -/
def errorShapedResult (msg : String) : TextExtractionResult :=
  { text := "",
    metadata :=
      { toExtraMeta :=
          { emptyExtra with
              format := some "error",
              warnings := some ["Extraction failed: " ++ msg] },
        wordCount := 0,
        characterCount := 0 } }

/-- The `switch (fileType)` inside `extractText`: pick the extractor by
mimetype; the `Except.error` layer is a throw inside the dispatcher body
itself (a failed `fetchFileContent` call at dispatcher level). -/
def dispatchExtraction (file : UploadFile) (env : ExtractionEnv) :
    Except String (ServiceResult TextExtractionResult) :=
  match file.mimetype with
  | "application/pdf" =>
      match env.fetchFile file.path with
      | Except.error e => Except.error e
      | Except.ok pdfBuffer => Except.ok (extractTextFromPDF pdfBuffer env.ocr)
  | "application/vnd.openxmlformats-officedocument.wordprocessingml.document" =>
      Except.ok (extractTextFromDOCX file.path env)
  | "application/msword" =>
      Except.ok (extractTextFromDOCX file.path env)
  | "text/markdown" =>
      match env.fetchFile file.path with
      | Except.error e => Except.error e
      | Except.ok mdBuffer => Except.ok (extractTextFromMarkdown mdBuffer env)
  | "text/plain" =>
      match env.fetchFile file.path with
      | Except.error e => Except.error e
      | Except.ok txtBuffer => Except.ok (extractTextFromTXT txtBuffer)
  | "application/rtf" =>
      match env.fetchFile file.path with
      | Except.error e => Except.error e
      | Except.ok txtBuffer => Except.ok (extractTextFromTXT txtBuffer)
  | _ => Except.ok (ServiceResult.success (unsupportedResult file.mimetype))

/-- `extractText`, the dispatcher from `src/services/text-extraction.service.ts`:
run the switch inside `safeAsync`, then replace an extractor-reported failure
with the `errorShapedResult` instead of rethrowing. -/
def extractText (file : UploadFile) (env : ExtractionEnv) : ServiceResult TextExtractionResult :=
  match dispatchExtraction file env with
  | Except.error e => ServiceResult.failure e
  | Except.ok (ServiceResult.failure e) => ServiceResult.success (errorShapedResult e)
  | Except.ok (ServiceResult.success d) => ServiceResult.success d

/-- `file_type` enum of the schema. -/
inductive FileType where
  | pdf
  | docx
  | md
  | txt
deriving Repr, DecidableEq

/-- The string stored for a `FileType`. -/
def FileType.str : FileType → String
  | FileType.pdf => "pdf"
  | FileType.docx => "docx"
  | FileType.md => "md"
  | FileType.txt => "txt"

/-- `document_status` enum of the schema (`uploading`, `processing`, `ready`,
`error`; the spec's state machine calls the last one `failed`). -/
inductive DocStatus where
  | uploading
  | processing
  | ready
  | error
deriving Repr, DecidableEq

/-- `extractFileType` from `src/services/upload.service.ts`: the mimetype
lookup table with `|| 'txt'` as default for any unknown mimetype. -/
def extractFileType (mimetype : String) : FileType :=
  match mimetype with
  | "application/pdf" => FileType.pdf
  | "application/vnd.openxmlformats-officedocument.wordprocessingml.document" => FileType.docx
  | "application/msword" => FileType.docx
  | "text/markdown" => FileType.md
  | "text/plain" => FileType.txt
  | "application/rtf" => FileType.txt
  | _ => FileType.txt

/-- The persisted extraction block merged into `Document.metadata` by
`updateDocumentWithText` (`textExtraction: {extractedAt, ...metadata}`). -/
structure TextExtractionRecord where
  extractedAt : Nat
  meta : TextMetadata
deriving Repr, DecidableEq

/-- `Document.metadata`, restricted to the fields the pipeline reads or
writes: upload metadata, the Cloudinary `public_id`/`folder` spread in at
creation, and the `textExtraction` block. -/
structure DocMetadata where
  title : Option String
  description : Option String
  publicId : String
  folder : String
  textExtraction : Option TextExtractionRecord
deriving Repr, DecidableEq

/-- A row of the `documents` table. -/
structure DocRow where
  id : Nat
  userId : Option String
  filename : String
  originalName : String
  fileType : FileType
  fileSize : Nat
  contentText : Option String
  status : DocStatus
  uploadPath : String
  metadata : DocMetadata
  createdAt : Nat
  updatedAt : Nat
deriving Repr, DecidableEq

/-- A row of the `document_processing` table (stage and status kept as the
strings the service writes). -/
structure ProcRow where
  id : Nat
  documentId : Nat
  stage : String
  status : String
  createdAt : Nat
  updatedAt : Nat
deriving Repr, DecidableEq

/-- The database state: the two tables, fresh-id counters for inserts, and a
ghost history `statusWrites` recording every `update documents set status`
in order (used to state the temporal claims; it has no effect on behavior). -/
structure Db where
  documents : List DocRow
  processing : List ProcRow
  nextDocId : Nat
  nextProcId : Nat
  statusWrites : List (Nat × DocStatus)
deriving Repr, DecidableEq

/-- `select().from(documents).where(eq(id, i)).limit(1)`. -/
def Db.findDoc (db : Db) (i : Nat) : Option DocRow :=
  db.documents.find? (fun d => d.id == i)

/-- `insert(documents).values(...)`; the caller builds the row with
`id = db.nextDocId`. -/
def Db.insertDoc (db : Db) (row : DocRow) : Db :=
  { db with documents := db.documents ++ [row], nextDocId := db.nextDocId + 1 }

/-- `insert(document_processing).values({documentId, stage, status})`. -/
def Db.insertProc (db : Db) (documentId : Nat) (stage status : String) (now : Nat) : Db :=
  { db with
      processing := db.processing ++
        [{ id := db.nextProcId, documentId := documentId, stage := stage,
           status := status, createdAt := now, updatedAt := now }],
      nextProcId := db.nextProcId + 1 }

/-- `update(documents).set({status, updatedAt}).where(eq(id, i))`; also
appends to the ghost status-write history. -/
def Db.updateDocStatus (db : Db) (i : Nat) (st : DocStatus) (now : Nat) : Db :=
  { db with
      documents := db.documents.map
        (fun d => if d.id == i then { d with status := st, updatedAt := now } else d),
      statusWrites := db.statusWrites ++ [(i, st)] }

/-- `update(documents).set({contentText, metadata, updatedAt}).where(eq(id, i))`. -/
def Db.updateDocText (db : Db) (i : Nat) (text : String) (meta : DocMetadata) (now : Nat) : Db :=
  { db with
      documents := db.documents.map
        (fun d => if d.id == i then
            { d with contentText := some text, metadata := meta, updatedAt := now }
          else d) }

/-- `update(document_processing).set({stage, status[, updatedAt]}).where(eq(documentId, i))`
(the service's first update sets `updatedAt`, the final one does not). -/
def Db.updateProc (db : Db) (i : Nat) (stage status : String) (touch : Option Nat) : Db :=
  { db with
      processing := db.processing.map
        (fun r => if r.documentId == i then
            { r with stage := stage, status := status,
                     updatedAt := match touch with
                                  | some now => now
                                  | none => r.updatedAt }
          else r) }

/-- The upload metadata the caller passes to `createDocument`. -/
structure UploadMetadataIn where
  title : Option String
  description : Option String
deriving Repr, DecidableEq

/-- `supportedTypes` from `createDocumentRecord`. -/
def supportedTypes : List String := ["pdf", "docx", "md", "txt"]

/-- `createDocumentRecord` from `src/services/upload.service.ts` up to the
point where it returns to the upload handler: insert the document row with
`status: 'uploading'`, insert the `{stage:'upload', status:'success'}`
processing record, then set the status to `processing` (supported type, with
`processDocumentText` fired asynchronously and NOT awaited) or `ready`
(unsupported type).  The returned row is the one produced by the insert's
`.returning()`, i.e. it still carries `status = uploading`. -/
def createDocumentRecord (file : UploadFile) (userId : Option String)
    (metadata : UploadMetadataIn) (env : ExtractionEnv) (db : Db) : DocRow × Db :=
  let fileType := extractFileType file.mimetype
  let enhancedMetadata : DocMetadata :=
    { title := metadata.title, description := metadata.description,
      publicId := file.filename, folder := file.folder, textExtraction := none }
  let document : DocRow :=
    { id := db.nextDocId, userId := userId, filename := file.filename,
      originalName := file.originalname, fileType := fileType,
      fileSize := file.size, contentText := none, status := DocStatus.uploading,
      uploadPath := file.path, metadata := enhancedMetadata,
      createdAt := env.nowMs, updatedAt := env.nowMs }
  let db1 := db.insertDoc document
  let db2 := db1.insertProc document.id "upload" "success" env.nowMs
  let shouldExtractText := supportedTypes.contains fileType.str
  if shouldExtractText then
    (document, db2.updateDocStatus document.id DocStatus.processing env.nowMs)
  else
    (document, db2.updateDocStatus document.id DocStatus.ready env.nowMs)

/-- The `DocumentResponse` shape built by `formatDocumentResponse`. -/
structure DocumentResponse where
  id : Nat
  filename : String
  originalName : String
  fileType : FileType
  fileSize : Nat
  status : DocStatus
  uploadPath : String
  metadata : DocMetadata
  userId : Option String
  createdAt : Nat
  isPublic : Bool
deriving Repr, DecidableEq

/-- `formatDocumentResponse` (the `document.status || 'ready'` fallback never
fires in this model because the row's status column is not nullable). -/
def formatDocumentResponse (document : DocRow) (isPrivate : Bool) : DocumentResponse :=
  { id := document.id, filename := document.filename,
    originalName := document.originalName, fileType := document.fileType,
    fileSize := document.fileSize, status := document.status,
    uploadPath := document.uploadPath, metadata := document.metadata,
    userId := if isPrivate then document.userId else none,
    createdAt := document.createdAt, isPublic := document.userId.isNone }

/-- The nested ternary in `processDocumentText` that rebuilds a mimetype from
the stored `fileType`. -/
def mimetypeOf : FileType → String
  | FileType.pdf => "application/pdf"
  | FileType.docx => "application/vnd.openxmlformats-officedocument.wordprocessingml.document"
  | FileType.md => "text/markdown"
  | FileType.txt => "text/plain"

/-- The `fileForExtraction` object `processDocumentText` assembles from the
stored document row. -/
def fileForExtraction (document : DocRow) : UploadFile :=
  { fieldname := "document", originalname := document.originalName,
    mimetype := mimetypeOf document.fileType, size := document.fileSize,
    filename := document.filename, path := document.uploadPath,
    publicId := document.metadata.publicId, folder := document.metadata.folder }

/-- The degraded `{text:'', metadata:{format:'error', ...}}` value returned
by the `catch` block of `processDocumentText`. -/
def catchResult (msg : String) : TextExtractionResult :=
  { text := "",
    metadata :=
      { toExtraMeta :=
          { emptyExtra with
              format := some "error",
              warnings := some ["Text extraction failed: " ++ msg] },
        wordCount := 0,
        characterCount := 0 } }

/-- The `catch` block of `processDocumentText`: set the document back to
`ready` and return the degraded result instead of throwing. -/
def processCatch (documentId : Nat) (env : ExtractionEnv) (db : Db) (msg : String) :
    ServiceResult TextExtractionResult × Db :=
  (ServiceResult.success (catchResult msg),
   db.updateDocStatus documentId DocStatus.ready env.nowMs)

/-- `updateDocumentWithText` from `src/services/upload.service.ts`: re-read
the row, merge `{textExtraction: {extractedAt, ...metadata}}` into its
metadata, and write `contentText`, `metadata`, `updatedAt`. -/
def updateDocumentWithText (documentId : Nat) (text : String) (metadata : TextMetadata)
    (env : ExtractionEnv) (db : Db) : ServiceResult Bool × Db :=
  match db.findDoc documentId with
  | none => (ServiceResult.failure ("Document not found: " ++ toString documentId), db)
  | some currentDocument =>
      let enhancedMetadata : DocMetadata :=
        { currentDocument.metadata with
            textExtraction := some { extractedAt := env.nowMs, meta := metadata } }
      (ServiceResult.success true,
       db.updateDocText documentId text enhancedMetadata env.nowMs)

/-- `processDocumentText` from `src/services/upload.service.ts`.  The whole
body runs inside `safeAsync`; the absent-document throw becomes the failure
result.  After the two initial writes, the `try` block runs extraction and
persistence; any throw inside it is converted by the `catch` block into the
degraded success result and a final `status = ready` write. -/
def processDocumentText (documentId : Nat) (env : ExtractionEnv) (db : Db) :
    ServiceResult TextExtractionResult × Db :=
  match db.findDoc documentId with
  | none => (ServiceResult.failure ("Document not found: " ++ toString documentId), db)
  | some document =>
      let db1 := db.updateProc documentId "extract" "processing" (some env.nowMs)
      let db2 := db1.updateDocStatus documentId DocStatus.processing env.nowMs
      match extractText (fileForExtraction document) env with
      | ServiceResult.failure e =>
          processCatch documentId env db2 ("Text extraction failed: " ++ e)
      | ServiceResult.success textData =>
          match updateDocumentWithText documentId textData.text textData.metadata env db2 with
          | (ServiceResult.failure e, db3) =>
              processCatch documentId env db3 ("Failed to update document with text: " ++ e)
          | (ServiceResult.success _, db3) =>
              let db4 := db3.updateDocStatus documentId DocStatus.ready env.nowMs
              let db5 := db4.updateProc documentId "extract" "success" none
              (ServiceResult.success textData, db5)

/-- Token counter for the specification's whitespace-tokenization rule
(§4.3): scanning left to right, a token starts at each non-whitespace
character that begins a maximal non-whitespace run; `inWord` records whether
the scanner is currently inside such a run. -/
def countTokensAux (inWord : Bool) : List Char → Nat
  | [] => 0
  | c :: t =>
      if isWsChar c then countTokensAux false t
      else if inWord then countTokensAux true t
      else countTokensAux true t + 1

/-- Modelled from the spec (§4.3): `wordCount` = count of
whitespace-delimited non-empty tokens of the text. -/
def specWordCount (text : String) : Nat :=
  countTokensAux false text.toList

/-- Modelled from the spec (§4.3): `characterCount` = count of
non-whitespace characters of the text. -/
def specCharCount (text : String) : Nat :=
  text.toList.countP (fun c => !isWsChar c)

/-- `needle` occurs contiguously inside `hay` ("the warning string embeds
..."). -/
def strContains (hay needle : String) : Prop :=
  needle.toList <:+: hay.toList

/-- A text/plain upload whose stored blob is `"hi there"`. -/
def fileTxtHi : UploadFile :=
  { fieldname := "document", originalname := "note.txt", mimetype := "text/plain",
    size := 10, filename := "note", path := "cloud/note", publicId := "note",
    folder := "" }

/-- A markdown upload. -/
def fileMdA : UploadFile :=
  { fieldname := "document", originalname := "readme.md", mimetype := "text/markdown",
    size := 4, filename := "readme", path := "cloud/readme", publicId := "readme",
    folder := "" }

/-- An upload whose declared content type is not an extraction format. -/
def filePngA : UploadFile :=
  { fieldname := "document", originalname := "pic.png", mimetype := "image/png",
    size := 9, filename := "pic", path := "cloud/pic", publicId := "pic",
    folder := "" }

/-- An environment whose storage fetch always yields `"hi there"`. -/
def envHi : ExtractionEnv :=
  { fetchFile := fun _ => Except.ok "hi there",
    ocr := OcrOutcome.netError "down" 0,
    mammothExtract := fun _ => Except.error "mammoth failed",
    grayMatter := fun c => ([], c),
    nowMs := 1000 }

/-- An environment whose storage fetch always throws. -/
def envFetchFail : ExtractionEnv :=
  { fetchFile := fun _ => Except.error "Failed to fetch file: Not Found",
    ocr := OcrOutcome.netError "down" 0,
    mammothExtract := fun _ => Except.error "mammoth failed",
    grayMatter := fun c => ([], c),
    nowMs := 1000 }

/-- An environment whose storage fetch yields the empty blob. -/
def envEmptyFetch : ExtractionEnv :=
  { fetchFile := fun _ => Except.ok "",
    ocr := OcrOutcome.netError "down" 0,
    mammothExtract := fun _ => Except.error "mammoth failed",
    grayMatter := fun c => ([], c),
    nowMs := 1000 }

/-- An environment where the OCR call times out after a measured 123 ms while
the PDF blob itself is fetched fine. -/
def envOcrTimeout : ExtractionEnv :=
  { fetchFile := fun _ => Except.ok "%PDF-1.4 stub",
    ocr := OcrOutcome.netError "timeout of 30000ms exceeded" 123,
    mammothExtract := fun _ => Except.error "mammoth failed",
    grayMatter := fun c => ([], c),
    nowMs := 1000 }

/-- The empty database. -/
def dbEmpty : Db :=
  { documents := [], processing := [], nextDocId := 0, nextProcId := 0,
    statusWrites := [] }

/-- A stored plain-text document with id 0, as left behind by an upload. -/
def docTxt0 : DocRow :=
  { id := 0, userId := none, filename := "note", originalName := "note.txt",
    fileType := FileType.txt, fileSize := 10, contentText := none,
    status := DocStatus.processing, uploadPath := "cloud/note",
    metadata := { title := none, description := none, publicId := "note",
                  folder := "", textExtraction := none },
    createdAt := 1000, updatedAt := 1000 }

/-- A stored PDF document with id 0. -/
def docPdf0 : DocRow :=
  { id := 0, userId := none, filename := "scan", originalName := "scan.pdf",
    fileType := FileType.pdf, fileSize := 9, contentText := none,
    status := DocStatus.processing, uploadPath := "cloud/scan",
    metadata := { title := none, description := none, publicId := "scan",
                  folder := "", textExtraction := none },
    createdAt := 1000, updatedAt := 1000 }

/-- A database holding just `docTxt0` and its upload processing record. -/
def dbTxtDoc : Db :=
  { documents := [docTxt0],
    processing := [{ id := 0, documentId := 0, stage := "upload",
                     status := "success", createdAt := 1000, updatedAt := 1000 }],
    nextDocId := 1, nextProcId := 1, statusWrites := [] }

/-- A database holding just `docPdf0` and its upload processing record. -/
def dbPdfDoc : Db :=
  { documents := [docPdf0],
    processing := [{ id := 0, documentId := 0, stage := "upload",
                     status := "success", createdAt := 1000, updatedAt := 1000 }],
    nextDocId := 1, nextProcId := 1, statusWrites := [] }

instance (hay needle : String) : Decidable (strContains hay needle) :=
  inferInstanceAs (Decidable (needle.toList <:+: hay.toList))

/-- Empty upload metadata. -/
def metaNone : UploadMetadataIn := { title := none, description := none }

theorem ctAux_ws_head (b : Bool) (c : Char) (t : List Char) (h : isWsChar c = true) :
    countTokensAux b (c :: t) = countTokensAux false t := by
  simp [countTokensAux, h]

theorem ctAux_allWs (t : List Char) (h : ∀ c ∈ t, isWsChar c = true) (b : Bool) :
    countTokensAux b t = 0 := by
  induction t generalizing b with
  | nil => rfl
  | cons c t ih =>
      have hc : isWsChar c = true := h c (List.mem_cons_self c t)
      rw [ctAux_ws_head b c t hc]
      exact ih (fun x hx => h x (List.mem_cons_of_mem c hx)) false

theorem ctAux_allNonWs_true (t : List Char) (h : ∀ c ∈ t, isWsChar c = false) :
    countTokensAux true t = 0 := by
  induction t with
  | nil => rfl
  | cons c t ih =>
      have hc : isWsChar c = false := h c (List.mem_cons_self c t)
      simp [countTokensAux, hc]
      exact ih (fun x hx => h x (List.mem_cons_of_mem c hx))

theorem ctAux_dropWhile_ws (l : List Char) :
    countTokensAux false (l.dropWhile isWsChar) = countTokensAux false l := by
  induction l with
  | nil => rfl
  | cons c t ih =>
      by_cases hc : isWsChar c = true
      · rw [List.dropWhile_cons_of_pos hc, ih, ctAux_ws_head false c t hc]
      · rw [List.dropWhile_cons_of_neg hc]

theorem ctAux_true_append_allNonWs (p' rest : List Char)
    (h : ∀ c ∈ p', isWsChar c = false) :
    countTokensAux true (p' ++ rest) = countTokensAux true rest := by
  induction p' with
  | nil => rfl
  | cons c t ih =>
      have hc : isWsChar c = false := h c (List.mem_cons_self c t)
      rw [List.cons_append]
      simp [countTokensAux, hc]
      exact ih (fun x hx => h x (List.mem_cons_of_mem c hx))

theorem ctAux_append_allNonWs (pre rest : List Char)
    (h : ∀ c ∈ pre, isWsChar c = false) (hne : pre ≠ []) :
    countTokensAux false (pre ++ rest) = countTokensAux true rest + 1 := by
  cases pre with
  | nil => exact absurd rfl hne
  | cons c t =>
      have hc : isWsChar c = false := h c (List.mem_cons_self c t)
      rw [List.cons_append]
      simp [countTokensAux, hc]
      exact ctAux_true_append_allNonWs t rest (fun x hx => h x (List.mem_cons_of_mem c hx))

theorem ctAux_trailing_ws (l t : List Char) (ht : ∀ c ∈ t, isWsChar c = true)
    (b : Bool) : countTokensAux b (l ++ t) = countTokensAux b l := by
  induction l generalizing b with
  | nil => simpa [countTokensAux] using ctAux_allWs t ht b
  | cons c l' ih =>
      by_cases hc : isWsChar c = true
      · rw [List.cons_append, ctAux_ws_head b c (l' ++ t) hc,
            ctAux_ws_head b c l' hc]
        exact ih false
      · have hc' : isWsChar c = false := by
          cases hcv : isWsChar c
          · rfl
          · exact absurd hcv hc
        rw [List.cons_append]
        simp [countTokensAux, hc']
        cases b
        · simp
          exact ih true
        · simp
          exact ih true

theorem dropWhile_head_false {α : Type} (p : α → Bool) (l : List α) (c : α)
    (t : List α) (h : l.dropWhile p = c :: t) : p c = false := by
  induction l with
  | nil => simp [List.dropWhile] at h
  | cons a l' ih =>
      by_cases ha : p a = true
      · rw [List.dropWhile_cons_of_pos ha] at h
        exact ih h
      · rw [List.dropWhile_cons_of_neg ha] at h
        cases h
        cases hav : p c
        · rfl
        · exact absurd hav ha

theorem length_dropWhile_le' {α : Type} (p : α → Bool) (l : List α) :
    (l.dropWhile p).length ≤ l.length := by
  have h := congrArg List.length (List.takeWhile_append_dropWhile p l)
  rw [List.length_append] at h
  omega

theorem filterTokens_jsSplitWsAux (fuel : Nat) :
    ∀ l : List Char, l.length < fuel →
      ((jsSplitWsAux fuel l).filter (fun w => w.length != 0)).length =
        countTokensAux false l := by
  induction fuel with
  | zero => intro l hl; omega
  | succ fuel ih =>
      intro l hl
      have hsplit := List.takeWhile_append_dropWhile (fun c => !isWsChar c) l
      cases hrest : l.dropWhile (fun c => !isWsChar c) with
      | nil =>
          rw [hrest, List.append_nil] at hsplit
          have hall : ∀ a ∈ l, (fun c => !isWsChar c) a = true :=
            (List.dropWhile_eq_nil_iff).mp hrest
          have hall' : ∀ a ∈ l, isWsChar a = false := by
            intro a ha
            have := hall a ha
            simpa using this
          simp only [jsSplitWsAux, hrest, hsplit]
          cases l with
          | nil => simp [countTokensAux]
          | cons c t =>
              have hc : isWsChar c = false := hall' c (List.mem_cons_self c t)
              simp [countTokensAux, hc, List.filter]
              exact ctAux_allNonWs_true t
                (fun x hx => hall' x (List.mem_cons_of_mem c hx))
      | cons c t =>
          have hc : isWsChar c = true := by
            have := dropWhile_head_false (fun c => !isWsChar c) l c t hrest
            simpa using this
          have hpre : ∀ a ∈ l.takeWhile (fun c => !isWsChar c), isWsChar a = false := by
            intro a ha
            have := List.mem_takeWhile_imp ha
            simpa using this
          have hlen : ((c :: t).dropWhile isWsChar).length < fuel := by
            have h1 : ((c :: t).dropWhile isWsChar).length ≤ t.length := by
              rw [List.dropWhile_cons_of_pos hc]
              exact length_dropWhile_le' isWsChar t
            have h2 := congrArg List.length hsplit
            rw [hrest] at h2
            simp [List.length_append] at h2
            omega
          simp only [jsSplitWsAux, hrest]
          rw [List.filter_cons]
          conv_rhs => rw [← hsplit, hrest]
          have hrec := ih ((c :: t).dropWhile isWsChar) hlen
          rw [List.dropWhile_cons_of_pos hc] at hrec ⊢
          cases hp : l.takeWhile (fun c => !isWsChar c) with
          | nil =>
              simp only [hp] at *
              simp [hrec, ctAux_dropWhile_ws t, ctAux_ws_head false c t hc]
          | cons p ps =>
              have hpne : (p :: ps) ≠ ([] : List Char) := by simp
              rw [hp] at hpre
              rw [ctAux_append_allNonWs (p :: ps) (c :: t) hpre hpne,
                  ctAux_ws_head true c t hc]
              have hcond : ((p :: ps).length != 0) = true := by simp
              rw [if_pos hcond, List.length_cons, hrec, ctAux_dropWhile_ws t]

theorem filterTokens_jsSplitWs (l : List Char) :
    ((jsSplitWs l).filter (fun w => w.length != 0)).length = countTokensAux false l :=
  filterTokens_jsSplitWsAux (l.length + 1) l (Nat.lt_succ_self _)

theorem ctAux_dropTrailing (l : List Char) :
    countTokensAux false ((l.reverse.dropWhile isWsChar).reverse) =
      countTokensAux false l := by
  have hsplit := List.takeWhile_append_dropWhile isWsChar l.reverse
  have hl : l = (l.reverse.dropWhile isWsChar).reverse ++
      (l.reverse.takeWhile isWsChar).reverse := by
    have h2 := congrArg List.reverse hsplit
    rw [List.reverse_append, List.reverse_reverse] at h2
    exact h2.symm
  have hws : ∀ x ∈ (l.reverse.takeWhile isWsChar).reverse, isWsChar x = true := by
    intro x hx
    rw [List.mem_reverse] at hx
    exact List.mem_takeWhile_imp hx
  conv_rhs => rw [hl]
  exact (ctAux_trailing_ws _ _ hws false).symm

theorem jsWordCount_eq_spec (text : String) : jsWordCount text = specWordCount text := by
  unfold jsWordCount specWordCount jsTrim
  rw [filterTokens_jsSplitWs, ctAux_dropTrailing, ctAux_dropWhile_ws]

theorem jsCharCount_eq_spec (text : String) : jsCharCount text = specCharCount text := by
  unfold jsCharCount specCharCount
  exact (List.countP_eq_length_filter _ _).symm

theorem counts_calculateTextMetadata (text : String) (extra : ExtraMeta) :
    (calculateTextMetadata text extra).wordCount = specWordCount text ∧
      (calculateTextMetadata text extra).characterCount = specCharCount text :=
  ⟨jsWordCount_eq_spec text, jsCharCount_eq_spec text⟩

theorem specWordCount_empty : specWordCount "" = 0 := rfl

theorem specCharCount_empty : specCharCount "" = 0 := rfl

theorem counts_pdf (buffer : String) (ocr : OcrOutcome) (d : TextExtractionResult)
    (h : extractTextFromPDF buffer ocr = ServiceResult.success d) :
    d.metadata.wordCount = specWordCount d.text ∧
      d.metadata.characterCount = specCharCount d.text := by
  by_cases hb : buffer.length = 0
  · unfold extractTextFromPDF at h
    simp [hb] at h
  · cases ocr with
    | netError msg elapsed =>
        simp only [extractTextFromPDF, if_neg hb] at h
        cases h
        exact ⟨rfl, rfl⟩
    | reply body elapsed =>
        simp only [extractTextFromPDF, if_neg hb] at h
        by_cases hs : (!body.success) = true
        · rw [if_pos hs] at h
          cases h
          exact ⟨rfl, rfl⟩
        · rw [if_neg hs] at h
          cases h
          exact counts_calculateTextMetadata _ _

theorem counts_docx (filePath : String) (env : ExtractionEnv) (d : TextExtractionResult)
    (h : extractTextFromDOCX filePath env = ServiceResult.success d) :
    d.metadata.wordCount = specWordCount d.text ∧
      d.metadata.characterCount = specCharCount d.text := by
  by_cases hp : filePath.length = 0
  · unfold extractTextFromDOCX at h
    simp [hp] at h
  · cases hf : env.fetchFile filePath with
    | error e =>
        simp only [extractTextFromDOCX, if_neg hp, hf] at h
        cases h
    | ok buffer =>
        cases hm : env.mammothExtract buffer with
        | error e =>
            simp only [extractTextFromDOCX, if_neg hp, hf, hm] at h
            cases h
        | ok vm =>
            simp only [extractTextFromDOCX, if_neg hp, hf, hm] at h
            cases h
            exact counts_calculateTextMetadata _ _

theorem counts_markdown (content : String) (env : ExtractionEnv) (d : TextExtractionResult)
    (h : extractTextFromMarkdown content env = ServiceResult.success d) :
    d.metadata.wordCount = specWordCount d.text ∧
      d.metadata.characterCount = specCharCount d.text := by
  by_cases hc : content.length = 0
  · unfold extractTextFromMarkdown at h
    simp [hc] at h
  · simp only [extractTextFromMarkdown, if_neg hc] at h
    cases h
    exact counts_calculateTextMetadata _ _

theorem counts_txt (content : String) (d : TextExtractionResult)
    (h : extractTextFromTXT content = ServiceResult.success d) :
    d.metadata.wordCount = specWordCount d.text ∧
      d.metadata.characterCount = specCharCount d.text := by
  unfold extractTextFromTXT at h
  cases h
  exact counts_calculateTextMetadata _ _

theorem counts_unsupported (mimetype : String) :
    (unsupportedResult mimetype).metadata.wordCount =
        specWordCount (unsupportedResult mimetype).text ∧
      (unsupportedResult mimetype).metadata.characterCount =
        specCharCount (unsupportedResult mimetype).text :=
  ⟨rfl, rfl⟩

theorem counts_errorShaped (msg : String) :
    (errorShapedResult msg).metadata.wordCount =
        specWordCount (errorShapedResult msg).text ∧
      (errorShapedResult msg).metadata.characterCount =
        specCharCount (errorShapedResult msg).text :=
  ⟨rfl, rfl⟩

theorem counts_dispatch (file : UploadFile) (env : ExtractionEnv)
    (sr : ServiceResult TextExtractionResult)
    (hd : dispatchExtraction file env = Except.ok sr) :
    ∀ d, sr = ServiceResult.success d →
      d.metadata.wordCount = specWordCount d.text ∧
        d.metadata.characterCount = specCharCount d.text := by
  intro d hsr
  subst hsr
  unfold dispatchExtraction at hd
  split at hd
  · cases hf : env.fetchFile file.path with
    | error e => rw [hf] at hd; cases hd
    | ok pdfBuffer =>
        rw [hf] at hd
        injection hd with hinj
        exact counts_pdf pdfBuffer env.ocr d hinj
  · injection hd with hinj
    exact counts_docx file.path env d hinj
  · injection hd with hinj
    exact counts_docx file.path env d hinj
  · cases hf : env.fetchFile file.path with
    | error e => rw [hf] at hd; cases hd
    | ok mdBuffer =>
        rw [hf] at hd
        injection hd with hinj
        exact counts_markdown mdBuffer env d hinj
  · cases hf : env.fetchFile file.path with
    | error e => rw [hf] at hd; cases hd
    | ok txtBuffer =>
        rw [hf] at hd
        injection hd with hinj
        exact counts_txt txtBuffer d hinj
  · cases hf : env.fetchFile file.path with
    | error e => rw [hf] at hd; cases hd
    | ok txtBuffer =>
        rw [hf] at hd
        injection hd with hinj
        exact counts_txt txtBuffer d hinj
  · injection hd with hinj
    injection hinj with hinj2
    rw [← hinj2]
    exact counts_unsupported file.mimetype

theorem counts_extractText (file : UploadFile) (env : ExtractionEnv)
    (d : TextExtractionResult) (h : extractText file env = ServiceResult.success d) :
    d.metadata.wordCount = specWordCount d.text ∧
      d.metadata.characterCount = specCharCount d.text := by
  unfold extractText at h
  cases hd : dispatchExtraction file env with
  | error e => rw [hd] at h; cases h
  | ok sr =>
      rw [hd] at h
      cases sr with
      | failure e =>
          cases h
          exact counts_errorShaped e
      | success d0 =>
          cases h
          exact counts_dispatch file env _ hd _ rfl

theorem find?_map_key {α : Type} (key : α → Nat) (f : α → α)
    (hf : ∀ a, key (f a) = key a) (l : List α) (i : Nat) :
    (l.map f).find? (fun a => key a == i) = (l.find? (fun a => key a == i)).map f := by
  induction l with
  | nil => rfl
  | cons a t ih =>
      simp only [List.map_cons, List.find?]
      rw [hf]
      cases ha : (key a == i)
      · simp only [ha]
        exact ih
      · simp only [ha]
        rfl

theorem findDoc_updateProc (db : Db) (i : Nat) (stage status : String)
    (touch : Option Nat) (j : Nat) :
    (db.updateProc i stage status touch).findDoc j = db.findDoc j := rfl

theorem findDoc_updateDocStatus (db : Db) (i : Nat) (st : DocStatus) (now j : Nat) :
    (db.updateDocStatus i st now).findDoc j =
      (db.findDoc j).map
        (fun d => if d.id == i then { d with status := st, updatedAt := now } else d) := by
  unfold Db.findDoc Db.updateDocStatus
  exact find?_map_key DocRow.id _
    (fun a => by cases h : (a.id == i) <;> simp [h]) db.documents j

theorem findDoc_updateDocText (db : Db) (i : Nat) (text : String) (meta : DocMetadata)
    (now j : Nat) :
    (db.updateDocText i text meta now).findDoc j =
      (db.findDoc j).map
        (fun d => if d.id == i then
            { d with contentText := some text, metadata := meta, updatedAt := now }
          else d) := by
  unfold Db.findDoc Db.updateDocText
  exact find?_map_key DocRow.id _
    (fun a => by cases h : (a.id == i) <;> simp [h]) db.documents j

theorem findDoc_id (db : Db) (i : Nat) (doc : DocRow) (h : db.findDoc i = some doc) :
    doc.id = i := by
  have h2 := List.find?_some h
  simpa using h2

theorem findDoc_updateDocStatus_self (db : Db) (i : Nat) (st : DocStatus) (now : Nat)
    (doc : DocRow) (h : db.findDoc i = some doc) :
    (db.updateDocStatus i st now).findDoc i =
      some { doc with status := st, updatedAt := now } := by
  rw [findDoc_updateDocStatus, h]
  have hid : (doc.id == i) = true := by
    simp [findDoc_id db i doc h]
  simp only [Option.map_some']
  rw [if_pos hid]

theorem findDoc_updateDocText_self (db : Db) (i : Nat) (text : String)
    (meta : DocMetadata) (now : Nat) (doc : DocRow) (h : db.findDoc i = some doc) :
    (db.updateDocText i text meta now).findDoc i =
      some { doc with contentText := some text, metadata := meta, updatedAt := now } := by
  rw [findDoc_updateDocText, h]
  have hid : (doc.id == i) = true := by
    simp [findDoc_id db i doc h]
  simp only [Option.map_some']
  rw [if_pos hid]

theorem filter_map_comm {α : Type} (g : α → α) (p : α → Bool)
    (hpg : ∀ a, p (g a) = p a) (l : List α) :
    (l.map g).filter p = (l.filter p).map g := by
  induction l with
  | nil => rfl
  | cons a t ih =>
      rw [List.map_cons, List.filter_cons, List.filter_cons, hpg]
      by_cases ha : p a = true
      · rw [if_pos ha, if_pos ha, List.map_cons, ih]
      · rw [if_neg ha, if_neg ha, ih]

theorem processDocumentText_absent (id : Nat) (env : ExtractionEnv) (db : Db)
    (h : db.findDoc id = none) :
    processDocumentText id env db =
      (ServiceResult.failure ("Document not found: " ++ toString id), db) := by
  unfold processDocumentText
  rw [h]

theorem processDocumentText_run_fail (id : Nat) (env : ExtractionEnv) (db : Db)
    (doc : DocRow) (e : String) (h : db.findDoc id = some doc)
    (he : extractText (fileForExtraction doc) env = ServiceResult.failure e) :
    processDocumentText id env db =
      (ServiceResult.success (catchResult ("Text extraction failed: " ++ e)),
       ((db.updateProc id "extract" "processing" (some env.nowMs)).updateDocStatus id
          DocStatus.processing env.nowMs).updateDocStatus id DocStatus.ready env.nowMs) := by
  unfold processDocumentText
  rw [h]
  simp only [he, processCatch]

theorem processDocumentText_run_succ (id : Nat) (env : ExtractionEnv) (db : Db)
    (doc : DocRow) (td : TextExtractionResult) (h : db.findDoc id = some doc)
    (he : extractText (fileForExtraction doc) env = ServiceResult.success td) :
    processDocumentText id env db =
      (ServiceResult.success td,
       ((((db.updateProc id "extract" "processing" (some env.nowMs)).updateDocStatus id
            DocStatus.processing env.nowMs).updateDocText id td.text
              { doc.metadata with
                  textExtraction := some { extractedAt := env.nowMs, meta := td.metadata } }
              env.nowMs).updateDocStatus id DocStatus.ready env.nowMs).updateProc id
         "extract" "success" none) := by
  have h2 : ((db.updateProc id "extract" "processing" (some env.nowMs)).updateDocStatus id
      DocStatus.processing env.nowMs).findDoc id =
        some { doc with status := DocStatus.processing, updatedAt := env.nowMs } :=
    findDoc_updateDocStatus_self _ id DocStatus.processing env.nowMs doc h
  unfold processDocumentText
  rw [h]
  simp only [he]
  unfold updateDocumentWithText
  rw [h2]

theorem statusWrites_run_fail (id : Nat) (env : ExtractionEnv) (db : Db) :
    (((db.updateProc id "extract" "processing" (some env.nowMs)).updateDocStatus id
        DocStatus.processing env.nowMs).updateDocStatus id DocStatus.ready
          env.nowMs).statusWrites =
      db.statusWrites ++ [(id, DocStatus.processing), (id, DocStatus.ready)] := by
  simp [Db.updateProc, Db.updateDocStatus]

theorem statusWrites_run_succ (id : Nat) (env : ExtractionEnv) (db : Db)
    (td : TextExtractionResult) (meta : DocMetadata) :
    (((((db.updateProc id "extract" "processing" (some env.nowMs)).updateDocStatus id
          DocStatus.processing env.nowMs).updateDocText id td.text meta
            env.nowMs).updateDocStatus id DocStatus.ready env.nowMs).updateProc id
       "extract" "success" none).statusWrites =
      db.statusWrites ++ [(id, DocStatus.processing), (id, DocStatus.ready)] := by
  simp [Db.updateProc, Db.updateDocStatus, Db.updateDocText]

theorem processDocumentText_master (id : Nat) (env : ExtractionEnv) (db : Db)
    (doc : DocRow) (h : db.findDoc id = some doc) :
    (∃ r, (processDocumentText id env db).1 = ServiceResult.success r) ∧
      ((processDocumentText id env db).2).statusWrites =
        db.statusWrites ++ [(id, DocStatus.processing), (id, DocStatus.ready)] ∧
      (∃ doc', ((processDocumentText id env db).2).findDoc id = some doc' ∧
        doc'.status = DocStatus.ready ∧ doc'.id = doc.id ∧ doc'.userId = doc.userId ∧
        doc'.filename = doc.filename ∧ doc'.originalName = doc.originalName ∧
        doc'.fileType = doc.fileType ∧ doc'.fileSize = doc.fileSize ∧
        doc'.uploadPath = doc.uploadPath ∧ doc'.createdAt = doc.createdAt) := by
  cases he : extractText (fileForExtraction doc) env with
  | failure e =>
      rw [processDocumentText_run_fail id env db doc e h he]
      refine ⟨⟨catchResult ("Text extraction failed: " ++ e), rfl⟩, ?_, ?_⟩
      · exact statusWrites_run_fail id env db
      · have hdb2 : ((db.updateProc id "extract" "processing"
            (some env.nowMs)).updateDocStatus id DocStatus.processing
              env.nowMs).findDoc id =
            some { doc with status := DocStatus.processing, updatedAt := env.nowMs } :=
          findDoc_updateDocStatus_self _ id DocStatus.processing env.nowMs doc h
        refine ⟨_, findDoc_updateDocStatus_self _ id DocStatus.ready env.nowMs _ hdb2, ?_⟩
        exact ⟨rfl, rfl, rfl, rfl, rfl, rfl, rfl, rfl, rfl⟩
  | success td =>
      rw [processDocumentText_run_succ id env db doc td h he]
      refine ⟨⟨td, rfl⟩, ?_, ?_⟩
      · exact statusWrites_run_succ id env db td _
      · have hdb2 : ((db.updateProc id "extract" "processing"
            (some env.nowMs)).updateDocStatus id DocStatus.processing
              env.nowMs).findDoc id =
            some { doc with status := DocStatus.processing, updatedAt := env.nowMs } :=
          findDoc_updateDocStatus_self _ id DocStatus.processing env.nowMs doc h
        have hdb3 := findDoc_updateDocText_self _ id td.text
          { doc.metadata with
              textExtraction := some { extractedAt := env.nowMs, meta := td.metadata } }
          env.nowMs _ hdb2
        refine ⟨_, findDoc_updateDocStatus_self _ id DocStatus.ready env.nowMs _ hdb3, ?_⟩
        exact ⟨rfl, rfl, rfl, rfl, rfl, rfl, rfl, rfl, rfl⟩

theorem extractTextFromPDF_ocrFail (buffer : String) (ocr : OcrOutcome)
    (hb : ¬ buffer.length = 0) (ho : ocrFailed ocr = true) :
    extractTextFromPDF buffer ocr =
      ServiceResult.success (pdfFailureResult (ocrErrMsg ocr) (ocrElapsed ocr)) := by
  unfold extractTextFromPDF
  rw [if_neg hb]
  cases ocr with
  | netError msg elapsed => rfl
  | reply body elapsed =>
      simp only [ocrFailed] at ho
      simp only [ocrErrMsg, ocrElapsed]
      rw [if_pos ho]

theorem dispatch_error_fetch (file : UploadFile) (env : ExtractionEnv) (e : String)
    (hd : dispatchExtraction file env = Except.error e) :
    env.fetchFile file.path = Except.error e := by
  unfold dispatchExtraction at hd
  split at hd
  · cases hf : env.fetchFile file.path with
    | error e2 => rw [hf] at hd; injection hd with h2; rw [h2]
    | ok b => rw [hf] at hd; cases hd
  · cases hd
  · cases hd
  · cases hf : env.fetchFile file.path with
    | error e2 => rw [hf] at hd; injection hd with h2; rw [h2]
    | ok b => rw [hf] at hd; cases hd
  · cases hf : env.fetchFile file.path with
    | error e2 => rw [hf] at hd; injection hd with h2; rw [h2]
    | ok b => rw [hf] at hd; cases hd
  · cases hf : env.fetchFile file.path with
    | error e2 => rw [hf] at hd; injection hd with h2; rw [h2]
    | ok b => rw [hf] at hd; cases hd
  · cases hd

theorem format_pdf (buffer : String) (ocr : OcrOutcome) (d : TextExtractionResult)
    (h : extractTextFromPDF buffer ocr = ServiceResult.success d) :
    d.metadata.format = some "pdf" := by
  by_cases hb : buffer.length = 0
  · unfold extractTextFromPDF at h
    simp [hb] at h
  · cases ocr with
    | netError msg elapsed =>
        simp only [extractTextFromPDF, if_neg hb] at h
        cases h
        rfl
    | reply body elapsed =>
        simp only [extractTextFromPDF, if_neg hb] at h
        by_cases hs : (!body.success) = true
        · rw [if_pos hs] at h
          cases h
          rfl
        · rw [if_neg hs] at h
          cases h
          rfl

theorem format_docx (filePath : String) (env : ExtractionEnv) (d : TextExtractionResult)
    (h : extractTextFromDOCX filePath env = ServiceResult.success d) :
    d.metadata.format = some "docx" := by
  by_cases hp : filePath.length = 0
  · unfold extractTextFromDOCX at h
    simp [hp] at h
  · cases hf : env.fetchFile filePath with
    | error e =>
        simp only [extractTextFromDOCX, if_neg hp, hf] at h
        cases h
    | ok buffer =>
        cases hm : env.mammothExtract buffer with
        | error e =>
            simp only [extractTextFromDOCX, if_neg hp, hf, hm] at h
            cases h
        | ok vm =>
            simp only [extractTextFromDOCX, if_neg hp, hf, hm] at h
            cases h
            rfl

theorem format_markdown (content : String) (env : ExtractionEnv) (d : TextExtractionResult)
    (h : extractTextFromMarkdown content env = ServiceResult.success d) :
    d.metadata.format = some "markdown" := by
  by_cases hc : content.length = 0
  · unfold extractTextFromMarkdown at h
    simp [hc] at h
  · simp only [extractTextFromMarkdown, if_neg hc] at h
    cases h
    rfl

theorem format_txt (content : String) (d : TextExtractionResult)
    (h : extractTextFromTXT content = ServiceResult.success d) :
    d.metadata.format = some "txt" := by
  unfold extractTextFromTXT at h
  cases h
  rfl

theorem format_dispatch (file : UploadFile) (env : ExtractionEnv)
    (sr : ServiceResult TextExtractionResult)
    (hd : dispatchExtraction file env = Except.ok sr) :
    ∀ d, sr = ServiceResult.success d → d.metadata.format.isSome = true := by
  intro d hsr
  subst hsr
  unfold dispatchExtraction at hd
  split at hd
  · cases hf : env.fetchFile file.path with
    | error e => rw [hf] at hd; cases hd
    | ok pdfBuffer =>
        rw [hf] at hd
        injection hd with hinj
        rw [format_pdf pdfBuffer env.ocr d hinj]
        rfl
  · injection hd with hinj
    rw [format_docx file.path env d hinj]
    rfl
  · injection hd with hinj
    rw [format_docx file.path env d hinj]
    rfl
  · cases hf : env.fetchFile file.path with
    | error e => rw [hf] at hd; cases hd
    | ok mdBuffer =>
        rw [hf] at hd
        injection hd with hinj
        rw [format_markdown mdBuffer env d hinj]
        rfl
  · cases hf : env.fetchFile file.path with
    | error e => rw [hf] at hd; cases hd
    | ok txtBuffer =>
        rw [hf] at hd
        injection hd with hinj
        rw [format_txt txtBuffer d hinj]
        rfl
  · cases hf : env.fetchFile file.path with
    | error e => rw [hf] at hd; cases hd
    | ok txtBuffer =>
        rw [hf] at hd
        injection hd with hinj
        rw [format_txt txtBuffer d hinj]
        rfl
  · injection hd with hinj
    injection hinj with hinj2
    rw [← hinj2]
    rfl

theorem extractText_inner_failure (file : UploadFile) (env : ExtractionEnv) (e : String)
    (hd : dispatchExtraction file env = Except.ok (ServiceResult.failure e)) :
    extractText file env = ServiceResult.success (errorShapedResult e) := by
  unfold extractText
  rw [hd]

theorem extractText_success_of_fetch_ok (file : UploadFile) (env : ExtractionEnv)
    (c : String) (hf : env.fetchFile file.path = Except.ok c) :
    ∃ d, extractText file env = ServiceResult.success d ∧
      d.metadata.format.isSome = true := by
  unfold extractText
  cases hd : dispatchExtraction file env with
  | error e =>
      have h2 := dispatch_error_fetch file env e hd
      rw [hf] at h2
      cases h2
  | ok sr =>
      cases sr with
      | failure e => exact ⟨errorShapedResult e, rfl, rfl⟩
      | success d => exact ⟨d, rfl, format_dispatch file env _ hd d rfl⟩

/-- C5: for every extractor and every returned text, the metadata's
`wordCount` equals the number of whitespace-delimited non-empty tokens of
that text and `characterCount` equals the number of non-whitespace characters
of that text, both computed by the single shared `calculateTextMetadata`;
the second conjunct states it for every `(text, metadata)` pair any extractor
hands back through the dispatcher. -/
theorem claim_C5 :
    (∀ (text : String) (extra : ExtraMeta),
        (calculateTextMetadata text extra).wordCount = specWordCount text ∧
          (calculateTextMetadata text extra).characterCount = specCharCount text) ∧
      (∀ (file : UploadFile) (env : ExtractionEnv) (d : TextExtractionResult),
        extractText file env = ServiceResult.success d →
          d.metadata.wordCount = specWordCount d.text ∧
            d.metadata.characterCount = specCharCount d.text) :=
  ⟨counts_calculateTextMetadata, counts_extractText⟩

theorem claim_C5_witness :
    extractText fileTxtHi envHi =
        ServiceResult.success
          { text := "hi there",
            metadata := calculateTextMetadata "hi there"
              { emptyExtra with format := some "txt" } } ∧
      ((calculateTextMetadata "hi there"
          { emptyExtra with format := some "txt" }).wordCount =
            specWordCount "hi there" ∧
        (calculateTextMetadata "hi there"
          { emptyExtra with format := some "txt" }).characterCount =
            specCharCount "hi there") :=
  ⟨by decide,
    claim_C5.2 fileTxtHi envHi
      { text := "hi there",
        metadata := calculateTextMetadata "hi there"
          { emptyExtra with format := some "txt" } }
      (by decide)⟩

/-- C2: for every document that exists when `processDocumentText` is invoked,
the run never writes `failed`/`error` into `Document.status`: the ghost
history records exactly a `processing` write followed by a `ready` write, and
the invocation completes with the document's status equal to `ready`. -/
theorem claim_C2 :
    ∀ (id : Nat) (env : ExtractionEnv) (db : Db) (doc : DocRow),
      db.findDoc id = some doc →
        (∃ doc', ((processDocumentText id env db).2).findDoc id = some doc' ∧
            doc'.status = DocStatus.ready) ∧
          ((processDocumentText id env db).2).statusWrites =
            db.statusWrites ++ [(id, DocStatus.processing), (id, DocStatus.ready)] := by
  intro id env db doc h
  obtain ⟨_, hw, ⟨doc', hfind, hst, _⟩⟩ := processDocumentText_master id env db doc h
  exact ⟨⟨doc', hfind, hst⟩, hw⟩

theorem claim_C2_witness :
    dbTxtDoc.findDoc 0 = some docTxt0 ∧
      ((∃ doc', ((processDocumentText 0 envHi dbTxtDoc).2).findDoc 0 = some doc' ∧
          doc'.status = DocStatus.ready) ∧
        ((processDocumentText 0 envHi dbTxtDoc).2).statusWrites =
          dbTxtDoc.statusWrites ++ [(0, DocStatus.processing), (0, DocStatus.ready)]) :=
  ⟨by decide, claim_C2 0 envHi dbTxtDoc docTxt0 (by decide)⟩

/-- C9: for every document and every invocation of `processDocumentText`
(including its `updateDocumentWithText` step), the fields `id`, `userId`,
`uploadPath`, `fileType`, `fileSize`, `filename`, `originalName` (and
`createdAt`) are unchanged; only `status`, `contentText`, `metadata` and
`updatedAt` are ever written by the run. -/
theorem claim_C9 :
    ∀ (id : Nat) (env : ExtractionEnv) (db : Db) (doc : DocRow),
      db.findDoc id = some doc →
        ∃ doc', ((processDocumentText id env db).2).findDoc id = some doc' ∧
          doc'.id = doc.id ∧ doc'.userId = doc.userId ∧
          doc'.filename = doc.filename ∧ doc'.originalName = doc.originalName ∧
          doc'.fileType = doc.fileType ∧ doc'.fileSize = doc.fileSize ∧
          doc'.uploadPath = doc.uploadPath ∧ doc'.createdAt = doc.createdAt := by
  intro id env db doc h
  obtain ⟨_, _, ⟨doc', hfind, _, hrest⟩⟩ := processDocumentText_master id env db doc h
  exact ⟨doc', hfind, hrest⟩

theorem claim_C9_witness :
    dbTxtDoc.findDoc 0 = some docTxt0 ∧
      (∃ doc', ((processDocumentText 0 envHi dbTxtDoc).2).findDoc 0 = some doc' ∧
        doc'.id = docTxt0.id ∧ doc'.userId = docTxt0.userId ∧
        doc'.filename = docTxt0.filename ∧ doc'.originalName = docTxt0.originalName ∧
        doc'.fileType = docTxt0.fileType ∧ doc'.fileSize = docTxt0.fileSize ∧
        doc'.uploadPath = docTxt0.uploadPath ∧ doc'.createdAt = docTxt0.createdAt) :=
  ⟨by decide, claim_C9 0 envHi dbTxtDoc docTxt0 (by decide)⟩

/-- C1 counterexample: for an existing PDF document whose OCR call fails
(timeout measured at 123 ms), `processDocumentText` completes successfully
with empty text, but the returned/persisted metadata carries
`format = "pdf"`, not the `format = "error"` marker the claim asserts for
every extraction-time error. -/
theorem claim_C1_counterexample :
    (processDocumentText 0 envOcrTimeout dbPdfDoc).1 =
        ServiceResult.success (pdfFailureResult "timeout of 30000ms exceeded" 123) ∧
      (pdfFailureResult "timeout of 30000ms exceeded" 123).text = "" ∧
      (pdfFailureResult "timeout of 30000ms exceeded" 123).metadata.format = some "pdf" ∧
      (pdfFailureResult "timeout of 30000ms exceeded" 123).metadata.format ≠ some "error" :=
  ⟨by decide, rfl, rfl, by decide⟩

/-- C1 (amended): `processDocumentText` yields an error outcome only for the
NotFound precondition; for an existing document the outcome is always
`success`; an extraction error that surfaces as a dispatcher failure (fetch
failure, extractor failure) yields the successful degraded outcome with empty
text, a `format = "error"` marker and a warning, while an OCR failure on a
PDF yields the successful degraded outcome with empty text, `format = "pdf"`
and a warning. -/
theorem claim_C1_amended :
    ∀ (id : Nat) (env : ExtractionEnv) (db : Db),
      (db.findDoc id = none →
        processDocumentText id env db =
          (ServiceResult.failure ("Document not found: " ++ toString id), db)) ∧
      (∀ doc, db.findDoc id = some doc →
        (∃ r, (processDocumentText id env db).1 = ServiceResult.success r) ∧
        (∀ e, extractText (fileForExtraction doc) env = ServiceResult.failure e →
          (processDocumentText id env db).1 =
            ServiceResult.success (catchResult ("Text extraction failed: " ++ e)) ∧
          (catchResult ("Text extraction failed: " ++ e)).text = "" ∧
          (catchResult ("Text extraction failed: " ++ e)).metadata.format = some "error" ∧
          (catchResult ("Text extraction failed: " ++ e)).metadata.warnings =
            some ["Text extraction failed: " ++ ("Text extraction failed: " ++ e)]) ∧
        (∀ buf, doc.fileType = FileType.pdf →
          env.fetchFile doc.uploadPath = Except.ok buf → ¬ buf.length = 0 →
          ocrFailed env.ocr = true →
          (processDocumentText id env db).1 =
            ServiceResult.success
              (pdfFailureResult (ocrErrMsg env.ocr) (ocrElapsed env.ocr)))) := by
  intro id env db
  constructor
  · intro h
    exact processDocumentText_absent id env db h
  · intro doc h
    refine ⟨?_, ?_, ?_⟩
    · cases he : extractText (fileForExtraction doc) env with
      | failure e =>
          rw [processDocumentText_run_fail id env db doc e h he]
          exact ⟨_, rfl⟩
      | success td =>
          rw [processDocumentText_run_succ id env db doc td h he]
          exact ⟨td, rfl⟩
    · intro e he
      rw [processDocumentText_run_fail id env db doc e h he]
      exact ⟨rfl, rfl, rfl, rfl⟩
    · intro buf hft hf hb ho
      have hmime : (fileForExtraction doc).mimetype = "application/pdf" := by
        unfold fileForExtraction mimetypeOf
        rw [hft]
      have hpath : (fileForExtraction doc).path = doc.uploadPath := rfl
      have hd : dispatchExtraction (fileForExtraction doc) env =
          Except.ok (extractTextFromPDF buf env.ocr) := by
        unfold dispatchExtraction
        rw [hmime, hpath, hf]
        rfl
      have hpdf := extractTextFromPDF_ocrFail buf env.ocr hb ho
      have he : extractText (fileForExtraction doc) env =
          ServiceResult.success
            (pdfFailureResult (ocrErrMsg env.ocr) (ocrElapsed env.ocr)) := by
        unfold extractText
        rw [hd, hpdf]
      rw [processDocumentText_run_succ id env db doc _ h he]

theorem claim_C1_witness :
    dbTxtDoc.findDoc 0 = some docTxt0 ∧
      extractText (fileForExtraction docTxt0) envFetchFail =
        ServiceResult.failure "Failed to fetch file: Not Found" ∧
      ((processDocumentText 0 envFetchFail dbTxtDoc).1 =
          ServiceResult.success
            (catchResult ("Text extraction failed: " ++ "Failed to fetch file: Not Found")) ∧
        (catchResult ("Text extraction failed: " ++ "Failed to fetch file: Not Found")).text = "" ∧
        (catchResult ("Text extraction failed: " ++
            "Failed to fetch file: Not Found")).metadata.format = some "error" ∧
        (catchResult ("Text extraction failed: " ++
            "Failed to fetch file: Not Found")).metadata.warnings =
          some ["Text extraction failed: " ++
            ("Text extraction failed: " ++ "Failed to fetch file: Not Found")]) :=
  ⟨by decide, by decide,
    ((claim_C1_amended 0 envFetchFail dbTxtDoc).2 docTxt0 (by decide)).2.1
      "Failed to fetch file: Not Found" (by decide)⟩

/-- C3 counterexample: for the non-empty PDF buffer `"x"` and an OCR timeout
whose measured `apiResponseTime` is 123 ms, the extractor's single warning
string is `"External OCR API failed: timeout"`: it embeds the error message
but does NOT embed the measured `apiResponseTime` (123), which is recorded
only as a separate metadata field. -/
theorem claim_C3_counterexample :
    extractTextFromPDF "x" (OcrOutcome.netError "timeout" 123) =
        ServiceResult.success (pdfFailureResult "timeout" 123) ∧
      (pdfFailureResult "timeout" 123).metadata.warnings =
        some ["External OCR API failed: timeout"] ∧
      (pdfFailureResult "timeout" 123).metadata.apiResponseTime = some 123 ∧
      ¬ strContains "External OCR API failed: timeout" (toString 123) :=
  ⟨by decide, rfl, rfl, by decide⟩

/-- C3 (amended): for every non-empty PDF buffer and failed OCR call (thrown
HTTP/timeout error or `success = false` reply), `extractTextFromPDF` does not
throw past itself and returns `text = ""`, `metadata.format = "pdf"`,
`wordCount = 0`, `characterCount = 0`, a non-empty warnings array whose
warning string embeds the underlying error message, and the measured
`apiResponseTime` recorded as a metadata field (not inside the warning
string). -/
theorem claim_C3_amended :
    ∀ (buffer : String) (ocr : OcrOutcome),
      ¬ buffer.length = 0 → ocrFailed ocr = true →
        extractTextFromPDF buffer ocr =
            ServiceResult.success (pdfFailureResult (ocrErrMsg ocr) (ocrElapsed ocr)) ∧
          (pdfFailureResult (ocrErrMsg ocr) (ocrElapsed ocr)).text = "" ∧
          (pdfFailureResult (ocrErrMsg ocr) (ocrElapsed ocr)).metadata.format =
            some "pdf" ∧
          (pdfFailureResult (ocrErrMsg ocr) (ocrElapsed ocr)).metadata.wordCount = 0 ∧
          (pdfFailureResult (ocrErrMsg ocr) (ocrElapsed ocr)).metadata.characterCount = 0 ∧
          (pdfFailureResult (ocrErrMsg ocr) (ocrElapsed ocr)).metadata.warnings =
            some ["External OCR API failed: " ++ ocrErrMsg ocr] ∧
          ("External OCR API failed: " ++ ocrErrMsg ocr) ≠ "" ∧
          strContains ("External OCR API failed: " ++ ocrErrMsg ocr) (ocrErrMsg ocr) ∧
          (pdfFailureResult (ocrErrMsg ocr) (ocrElapsed ocr)).metadata.apiResponseTime =
            some (ocrElapsed ocr) := by
  intro buffer ocr hb ho
  refine ⟨extractTextFromPDF_ocrFail buffer ocr hb ho, rfl, rfl, rfl, rfl, rfl, ?_, ?_, rfl⟩
  · intro hcon
    have h2 := congrArg String.length hcon
    rw [String.length_append] at h2
    have h3 : "External OCR API failed: ".length = 25 := rfl
    have h4 : "".length = 0 := rfl
    rw [h3, h4] at h2
    omega
  · unfold strContains
    have h5 : ("External OCR API failed: " ++ ocrErrMsg ocr).toList =
        "External OCR API failed: ".toList ++ (ocrErrMsg ocr).toList := by
      simp [String.toList, String.data_append]
    rw [h5]
    exact (List.suffix_append "External OCR API failed: ".toList
      (ocrErrMsg ocr).toList).isInfix

theorem claim_C3_witness :
    ¬ ("%PDF" : String).length = 0 ∧
      ocrFailed (OcrOutcome.netError "Request failed with status code 500" 77) = true ∧
      extractTextFromPDF "%PDF" (OcrOutcome.netError "Request failed with status code 500" 77) =
        ServiceResult.success
          (pdfFailureResult
            (ocrErrMsg (OcrOutcome.netError "Request failed with status code 500" 77))
            (ocrElapsed (OcrOutcome.netError "Request failed with status code 500" 77))) :=
  ⟨by decide, by decide,
    (claim_C3_amended "%PDF" (OcrOutcome.netError "Request failed with status code 500" 77)
      (by decide) (by decide)).1⟩

/-- C4 counterexample: when the dispatcher-level content fetch itself throws
(markdown branch, storage returns an error), `extractText` does not return a
`(text, metadata)` pair: it returns a failure `ServiceResult` carrying the
fetch error, which the claim's universal contract excludes. -/
theorem claim_C4_counterexample :
    extractText fileMdA envFetchFail =
        ServiceResult.failure "Failed to fetch file: Not Found" ∧
      ServiceResult.isSuccess (extractText fileMdA envFetchFail) = false :=
  ⟨by decide, by decide⟩

/-- C4 (amended): whenever the dispatcher-level content fetch succeeds,
`extractText` returns a `(text, metadata)` pair whose metadata includes
`wordCount`, `characterCount` and a `format`; whenever the selected extractor
reports failure, the dispatcher converts it into the error-shaped result
(empty text, zero counts, one warning) instead of propagating.  When the
dispatcher-level fetch itself throws, `extractText` instead returns a
non-throwing failure `ServiceResult` (see the counterexample), which the
orchestrator then converts. -/
theorem claim_C4_amended :
    ∀ (file : UploadFile) (env : ExtractionEnv) (c : String),
      env.fetchFile file.path = Except.ok c →
        (∃ d, extractText file env = ServiceResult.success d ∧
          d.metadata.format.isSome = true) ∧
        (∀ e, dispatchExtraction file env = Except.ok (ServiceResult.failure e) →
          extractText file env = ServiceResult.success (errorShapedResult e) ∧
          (errorShapedResult e).text = "" ∧
          (errorShapedResult e).metadata.wordCount = 0 ∧
          (errorShapedResult e).metadata.characterCount = 0 ∧
          (errorShapedResult e).metadata.warnings = some ["Extraction failed: " ++ e]) := by
  intro file env c hf
  refine ⟨extractText_success_of_fetch_ok file env c hf, ?_⟩
  intro e hd
  exact ⟨extractText_inner_failure file env e hd, rfl, rfl, rfl, rfl⟩

theorem claim_C4_witness :
    envEmptyFetch.fetchFile fileMdA.path = Except.ok "" ∧
      dispatchExtraction fileMdA envEmptyFetch =
        Except.ok (ServiceResult.failure "Markdown content is empty") ∧
      (extractText fileMdA envEmptyFetch =
          ServiceResult.success (errorShapedResult "Markdown content is empty") ∧
        (errorShapedResult "Markdown content is empty").text = "" ∧
        (errorShapedResult "Markdown content is empty").metadata.wordCount = 0 ∧
        (errorShapedResult "Markdown content is empty").metadata.characterCount = 0 ∧
        (errorShapedResult "Markdown content is empty").metadata.warnings =
          some ["Extraction failed: " ++ "Markdown content is empty"]) :=
  ⟨rfl, by rfl,
    ((claim_C4_amended fileMdA envEmptyFetch "" rfl).2 "Markdown content is empty"
      (by rfl))⟩

theorem supported_all (ft : FileType) : supportedTypes.contains ft.str = true := by
  cases ft <;> decide

theorem find?_append_none {α : Type} (p : α → Bool) (l₁ l₂ : List α)
    (h : l₁.find? p = none) : (l₁ ++ l₂).find? p = l₂.find? p := by
  induction l₁ with
  | nil => rfl
  | cons a t ih =>
      cases ha : p a
      · simp only [List.find?, ha] at h
        simp only [List.cons_append, List.find?, ha]
        exact ih h
      · simp only [List.find?, ha] at h
        cases h

theorem findDoc_insert_self (db : Db) (row : DocRow) (hrow : row.id = db.nextDocId)
    (h : db.findDoc db.nextDocId = none) (docId : Nat) (stage status : String)
    (now : Nat) :
    ((db.insertDoc row).insertProc docId stage status now).findDoc db.nextDocId =
      some row := by
  unfold Db.findDoc at h ⊢
  show (db.documents ++ [row]).find? (fun d => d.id == db.nextDocId) = some row
  rw [find?_append_none _ _ _ h]
  simp [List.find?, hrow]

theorem createDoc_findDoc (file : UploadFile) (userId : Option String)
    (meta : UploadMetadataIn) (env : ExtractionEnv) (db : Db)
    (h : db.findDoc db.nextDocId = none) :
    ((createDocumentRecord file userId meta env db).2).findDoc db.nextDocId =
      some { id := db.nextDocId, userId := userId, filename := file.filename,
             originalName := file.originalname,
             fileType := extractFileType file.mimetype, fileSize := file.size,
             contentText := none, status := DocStatus.processing,
             uploadPath := file.path,
             metadata := { title := meta.title, description := meta.description,
                           publicId := file.filename, folder := file.folder,
                           textExtraction := none },
             createdAt := env.nowMs, updatedAt := env.nowMs } := by
  have hse := supported_all (extractFileType file.mimetype)
  unfold createDocumentRecord
  simp only [hse, if_true]
  rw [findDoc_updateDocStatus]
  rw [findDoc_insert_self db _ rfl h db.nextDocId "upload" "success" env.nowMs]
  simp only [Option.map_some']
  rw [if_pos]
  simp

theorem createDoc_processing (file : UploadFile) (userId : Option String)
    (meta : UploadMetadataIn) (env : ExtractionEnv) (db : Db) :
    ((createDocumentRecord file userId meta env db).2).processing =
      db.processing ++
        [{ id := db.nextProcId, documentId := db.nextDocId,
           stage := "upload", status := "success", createdAt := env.nowMs,
           updatedAt := env.nowMs }] := by
  have hse := supported_all (extractFileType file.mimetype)
  unfold createDocumentRecord
  simp only [hse, if_true]
  rfl

theorem filter_proc_updateProc (db : Db) (i : Nat) (stage status : String)
    (touch : Option Nat) :
    ((db.updateProc i stage status touch).processing.filter
        (fun r => r.documentId == i)) =
      (db.processing.filter (fun r => r.documentId == i)).map
        (fun r => { r with stage := stage, status := status,
                           updatedAt := match touch with
                                        | some n => n
                                        | none => r.updatedAt }) := by
  unfold Db.updateProc
  rw [filter_map_comm]
  · apply List.map_congr_left
    intro r hr
    have hp := (List.mem_filter.mp hr).2
    simp only [hp, if_true]
  · intro a
    cases hc : (a.documentId == i) <;> simp [hc]

theorem proc_stage_after_run (i : Nat) (env : ExtractionEnv) (db' : Db)
    (doc : DocRow) (hfind : db'.findDoc i = some doc) (rec : ProcRow)
    (hfil : db'.processing.filter (fun r => r.documentId == i) = [rec]) :
    ((((processDocumentText i env db').2).processing.filter
        (fun r => r.documentId == i)).map ProcRow.stage = ["extract"]) ∧
      ((processDocumentText i env db').2).processing.length =
        db'.processing.length := by
  cases he : extractText (fileForExtraction doc) env with
  | failure e =>
      rw [processDocumentText_run_fail i env db' doc e hfind he]
      constructor
      · show (((db'.updateProc i "extract" "processing"
            (some env.nowMs)).processing.filter
              (fun r => r.documentId == i)).map ProcRow.stage) = ["extract"]
        rw [filter_proc_updateProc, hfil]
        rfl
      · show ((db'.updateProc i "extract" "processing"
            (some env.nowMs)).processing).length = db'.processing.length
        simp [Db.updateProc]
  | success td =>
      rw [processDocumentText_run_succ i env db' doc td hfind he]
      constructor
      · show ((((db'.updateProc i "extract" "processing"
            (some env.nowMs)).updateProc i "extract" "success" none).processing.filter
              (fun r => r.documentId == i)).map ProcRow.stage) = ["extract"]
        rw [filter_proc_updateProc, filter_proc_updateProc, hfil]
        rfl
      · show (((db'.updateProc i "extract" "processing"
            (some env.nowMs)).updateProc i "extract" "success" none).processing).length =
          db'.processing.length
        simp [Db.updateProc]

/-- C6 counterexample: an upload with the unsupported declared content type
`image/png` is coerced to `txt` by `extractFileType`, so `createDocument`
sets `status = processing` (not `ready`), attempts extraction, and the
document's processing record does reach stage `extract`. -/
theorem claim_C6_counterexample :
    ((((createDocumentRecord filePngA none metaNone envHi dbEmpty).2).findDoc 0).map
        DocRow.status = some DocStatus.processing) ∧
      some DocStatus.processing ≠ some DocStatus.ready ∧
      (((processDocumentText 0 envHi
          (createDocumentRecord filePngA none metaNone envHi dbEmpty).2).2).processing.map
        ProcRow.stage = ["extract"]) :=
  ⟨by decide, by decide, by decide⟩

/-- C6 (amended): there is no upload with an unsupported declared format:
`extractFileType` maps every mimetype into the supported set (defaulting to
`txt`), so the unsupported-skip branch of `createDocumentRecord` is
unreachable and every upload is created with `status = processing` and
extraction attempted. -/
theorem claim_C6_amended :
    (∀ mimetype : String,
        supportedTypes.contains (extractFileType mimetype).str = true) ∧
      (∀ (file : UploadFile) (userId : Option String) (meta : UploadMetadataIn)
          (env : ExtractionEnv) (db : Db),
        db.findDoc db.nextDocId = none →
          (((createDocumentRecord file userId meta env db).2).findDoc
              db.nextDocId).map DocRow.status = some DocStatus.processing) := by
  constructor
  · intro m
    exact supported_all (extractFileType m)
  · intro file userId meta env db h
    rw [createDoc_findDoc file userId meta env db h]
    rfl

theorem claim_C6_witness :
    dbEmpty.findDoc dbEmpty.nextDocId = none ∧
      (((createDocumentRecord filePngA none metaNone envHi dbEmpty).2).findDoc
          dbEmpty.nextDocId).map DocRow.status = some DocStatus.processing :=
  ⟨rfl, claim_C6_amended.2 filePngA none metaNone envHi dbEmpty rfl⟩

/-- C7 counterexample: for the plain-text upload whose stored content is
`"hi there"`, `createDocument` does not return `status = ready` immediately:
the response carries the inserted row's `status = uploading`, and the row in
the database is set to `processing` while extraction runs asynchronously. -/
theorem claim_C7_counterexample :
    (formatDocumentResponse
        (createDocumentRecord fileTxtHi none metaNone envHi dbEmpty).1 false).status =
      DocStatus.uploading ∧
      DocStatus.uploading ≠ DocStatus.ready ∧
      ((((createDocumentRecord fileTxtHi none metaNone envHi dbEmpty).2).findDoc 0).map
        DocRow.status = some DocStatus.processing) :=
  ⟨by decide, by decide, by decide⟩

/-- C7 (amended): for the `"hi there"` plain-text upload, `createDocument`
returns immediately without waiting on extraction (response status
`uploading`, stored status `processing`), and once the asynchronous
`processDocumentText` task completes the document has `status = ready`,
`contentText = "hi there"`, and extraction metadata with `wordCount = 2` and
`characterCount = 7`. -/
theorem claim_C7_amended :
    ((formatDocumentResponse
        (createDocumentRecord fileTxtHi none metaNone envHi dbEmpty).1 false).status =
      DocStatus.uploading) ∧
      ((((processDocumentText 0 envHi
          (createDocumentRecord fileTxtHi none metaNone envHi dbEmpty).2).2).findDoc 0).map
        DocRow.status = some DocStatus.ready) ∧
      ((((processDocumentText 0 envHi
          (createDocumentRecord fileTxtHi none metaNone envHi dbEmpty).2).2).findDoc 0).map
        DocRow.contentText = some (some "hi there")) ∧
      ((((processDocumentText 0 envHi
          (createDocumentRecord fileTxtHi none metaNone envHi dbEmpty).2).2).findDoc 0).map
        (fun d => d.metadata.textExtraction.map
          (fun r => (r.meta.wordCount, r.meta.characterCount))) = some (some (2, 7))) :=
  ⟨by decide, by decide, by decide, by decide⟩

/-- C8 counterexample: after `createDocument` plus one invocation of
`processDocumentText`, the document does NOT have a `{stage: upload}` record
and a distinct `{stage: extract}` record: the single record inserted at
upload was updated in place, its stage overwritten to `extract`. -/
theorem claim_C8_counterexample :
    (((processDocumentText 0 envHi
        (createDocumentRecord fileTxtHi none metaNone envHi dbEmpty).2).2).processing.map
          (fun r => (r.stage, r.status)) = [("extract", "success")]) ∧
      (((processDocumentText 0 envHi
          (createDocumentRecord fileTxtHi none metaNone envHi dbEmpty).2).2).processing.filter
        (fun r => r.stage == "upload") = []) :=
  ⟨by decide, by decide⟩

/-- C8 (amended): a document has exactly one `ProcessingRecord`, written at
upload as `{stage: upload, status: success}` and then repurposed in place by
`processDocumentText`, whose updates set its stage to `extract`; no record is
ever deleted by the pipeline (the record count is preserved; deletion happens
only through document deletion). -/
theorem claim_C8_amended :
    ∀ (file : UploadFile) (userId : Option String) (meta : UploadMetadataIn)
      (env : ExtractionEnv) (db : Db),
      db.processing.filter (fun r => r.documentId == db.nextDocId) = [] →
      db.findDoc db.nextDocId = none →
        ((((createDocumentRecord file userId meta env db).2).processing.filter
            (fun r => r.documentId == db.nextDocId)).map (fun r => (r.stage, r.status)) =
          [("upload", "success")]) ∧
        ((((processDocumentText db.nextDocId env
              (createDocumentRecord file userId meta env db).2).2).processing.filter
            (fun r => r.documentId == db.nextDocId)).map ProcRow.stage = ["extract"]) ∧
        (((processDocumentText db.nextDocId env
            (createDocumentRecord file userId meta env db).2).2).processing.length =
          ((createDocumentRecord file userId meta env db).2).processing.length) := by
  intro file userId meta env db h1 h2
  have hfilter1 : ((createDocumentRecord file userId meta env db).2).processing.filter
      (fun r => r.documentId == db.nextDocId) =
        [{ id := db.nextProcId, documentId := db.nextDocId, stage := "upload",
           status := "success", createdAt := env.nowMs, updatedAt := env.nowMs }] := by
    rw [createDoc_processing file userId meta env db, List.filter_append, h1]
    simp [List.filter]
  have hfind := createDoc_findDoc file userId meta env db h2
  have hrun := proc_stage_after_run db.nextDocId env
    (createDocumentRecord file userId meta env db).2 _ hfind _ hfilter1
  exact ⟨by rw [hfilter1]; rfl, hrun.1, hrun.2⟩

theorem claim_C8_witness :
    dbEmpty.processing.filter (fun r => r.documentId == dbEmpty.nextDocId) = [] ∧
      dbEmpty.findDoc dbEmpty.nextDocId = none ∧
      (((((createDocumentRecord fileTxtHi none metaNone envHi dbEmpty).2).processing.filter
          (fun r => r.documentId == dbEmpty.nextDocId)).map
            (fun r => (r.stage, r.status)) = [("upload", "success")]) ∧
        ((((processDocumentText dbEmpty.nextDocId envHi
              (createDocumentRecord fileTxtHi none metaNone envHi dbEmpty).2).2).processing.filter
            (fun r => r.documentId == dbEmpty.nextDocId)).map ProcRow.stage = ["extract"]) ∧
        (((processDocumentText dbEmpty.nextDocId envHi
            (createDocumentRecord fileTxtHi none metaNone envHi dbEmpty).2).2).processing.length =
          ((createDocumentRecord fileTxtHi none metaNone envHi dbEmpty).2).processing.length)) :=
  ⟨rfl, rfl, claim_C8_amended fileTxtHi none metaNone envHi dbEmpty rfl rfl⟩

/-- C10: empty markdown input is an error, unlike empty plain text: on the
empty string the markdown extractor fails with `Markdown content is empty`,
which the dispatcher converts into the degraded result with `text = ""`,
`format = "error"`, zero counts and exactly one warning, whereas the plain
text extractor succeeds on the empty string with `text = ""` and
`format = "txt"`. -/
theorem claim_C10 :
    extractTextFromMarkdown "" envEmptyFetch =
        ServiceResult.failure "Markdown content is empty" ∧
      extractText fileMdA envEmptyFetch =
        ServiceResult.success (errorShapedResult "Markdown content is empty") ∧
      (errorShapedResult "Markdown content is empty").text = "" ∧
      (errorShapedResult "Markdown content is empty").metadata.format = some "error" ∧
      (errorShapedResult "Markdown content is empty").metadata.wordCount = 0 ∧
      (errorShapedResult "Markdown content is empty").metadata.characterCount = 0 ∧
      ((errorShapedResult "Markdown content is empty").metadata.warnings.map
        List.length) = some 1 ∧
      extractTextFromTXT "" =
        ServiceResult.success
          { text := "",
            metadata := calculateTextMetadata "" { emptyExtra with format := some "txt" } } ∧
      (calculateTextMetadata "" { emptyExtra with format := some "txt" }).format =
        some "txt" ∧
      (calculateTextMetadata "" { emptyExtra with format := some "txt" }).wordCount = 0 :=
  ⟨by decide, by decide, rfl, rfl, rfl, rfl, rfl, by decide, rfl, by decide⟩
